import Mathlib

/-!
# Verification of the SpecEI media pipeline

Shallow embedding of the four Python source files of the repository:

* `src/AI_Backend/supabase_sync.py` — the media-sync orchestrator and the
  media-store gateway;
* `src/AI_Backend/groq_cloud_service.py` — the AI-provider gateway
  (transcription, chat completion, forensic post-processing);
* `src/SpecEI_app/specei_app/server/face_detection_server.py` — the local
  face-detection HTTP server;
* `src/SpecEI_app/specei_app/server/whisper_server.py` — the local
  speech-to-text HTTP server.

External collaborators (the HTTP transport, the hosted AI provider, OpenCV,
the speech model, the file system) are modelled as explicit outcome
parameters ("oracles"): a theorem quantified over an oracle holds for every
possible behaviour of that collaborator.  Python dictionaries with optional
keys are modelled as structures with `Option` fields (`none` = absent key);
Python exceptions are modelled with `Except`, and a function that absorbs
every exception of a call is given that call's outcome as an `Except` value.
-/

namespace SpecEI

/-! ## Media sync orchestrator (src/AI_Backend/supabase_sync.py) -/

/-- A media record as fetched from the store: a JSON dictionary whose keys
may be absent (`none`).  `sync_user_media` reads the keys `id`, `file_url`,
`type` and `file_name` with `dict.get` and the defaults shown in the source
(lines 210-213). -/
structure MediaRecord where
  id : Option String := none
  file_url : Option String := none
  type : Option String := none
  file_name : Option String := none
deriving DecidableEq

/-- The summary dictionary returned by `sync_user_media`.  The `no_media`
branch (line 204) returns a dictionary without an `"errors"` key, which is
modelled by `errors = none`; the `completed` branch (lines 242-247) always
carries `errors = some _`. -/
structure SyncSummary where
  status : String
  processed : Nat
  total : Nat
  errors : Option Nat
deriving DecidableEq

/-- The calls `sync_user_media` makes on its collaborators, recorded as a
trace: a download from the media store, a call to `analyze_media`, and a
store into Supermemory. -/
inductive SyncOp where
  | download (url : String)
  | analyze (mediaType filename : String)
  | store (mediaId mediaType : String)
deriving DecidableEq

/-- The analysis dictionary built by `analyze_media` (lines 100-105 of
supabase_sync.py); the `segments` key is only added when a transcription
succeeds. -/
structure AnalysisDict where
  transcript : Option String := none
  tags : List String := []
  description : Option String := none
deriving DecidableEq

/-- Oracle for the three external calls made for one record inside the
per-record `try` of `sync_user_media`: each call either raises (`.error`,
any exception, absorbed by the `except` at lines 236-238) or returns a
value.  `download` returns Python `None` (`none`) or a byte string. -/
structure RecordOutcome where
  download : Except String (Option (List Nat))
  analyze : Except String AnalysisDict
  store : Except String Bool

/-- One iteration of the per-record loop of `sync_user_media`
(supabase_sync.py lines 209-238).  Returns the increments to `processed`
and `errors` and the trace of collaborator calls made for this record.
`file_bytes.getD [] = []` models Python's falsiness test
`if not file_bytes:` (`None` or empty bytes). -/
def processRecord (oc : RecordOutcome) (media : MediaRecord) : Nat × Nat × List SyncOp :=
  let media_id := media.id.getD ""
  let file_url := media.file_url.getD ""
  let media_type := media.type.getD "image"
  let filename := media.file_name.getD "file"
  if file_url = "" then (0, 0, [])
  else
    match oc.download with
    | .error _ => (0, 1, [.download file_url])
    | .ok file_bytes =>
      if file_bytes.getD [] = [] then (0, 1, [.download file_url])
      else
        match oc.analyze with
        | .error _ => (0, 1, [.download file_url, .analyze media_type filename])
        | .ok _ =>
          match oc.store with
          | .error _ =>
            (0, 1, [.download file_url, .analyze media_type filename, .store media_id media_type])
          | .ok true =>
            (1, 0, [.download file_url, .analyze media_type filename, .store media_id media_type])
          | .ok false =>
            (0, 1, [.download file_url, .analyze media_type filename, .store media_id media_type])

/-- The `for media in media_list` loop of `sync_user_media`, processing the
records sequentially in list order; `i` numbers the records so the oracle
can give each call of each record its own outcome. -/
def runLoop : List MediaRecord → (Nat → RecordOutcome) → Nat → Nat × Nat × List SyncOp
  | [], _, _ => (0, 0, [])
  | media :: rest, oc, i =>
    let r := processRecord (oc i) media
    let r' := runLoop rest oc (i + 1)
    (r.1 + r'.1, r.2.1 + r'.2.1, r.2.2 ++ r'.2.2)

/-- `SupabaseSyncService.sync_user_media` (supabase_sync.py lines 194-247),
given the media list fetched by `get_user_media` and an oracle for the
per-record collaborator calls.  Returns the summary dictionary and the
trace of collaborator calls. -/
def sync_user_media (media_list : List MediaRecord) (oc : Nat → RecordOutcome) :
    SyncSummary × List SyncOp :=
  if media_list.isEmpty then
    ({ status := "no_media", processed := 0, total := 0, errors := none }, [])
  else
    let r := runLoop media_list oc 0
    ({ status := "completed", processed := r.1, total := media_list.length,
       errors := some r.2.1 }, r.2.2)

theorem processRecord_count_le (oc : RecordOutcome) (m : MediaRecord) :
    (processRecord oc m).1 + (processRecord oc m).2.1 ≤ 1 := by
  obtain ⟨d, a, s⟩ := oc
  by_cases h : m.file_url.getD "" = ""
  · simp [processRecord, h]
  · rcases d with msg | fb
    · simp [processRecord, h]
    · by_cases hb : fb.getD [] = []
      · simp [processRecord, h, hb]
      · rcases a with msg | ad
        · simp [processRecord, h, hb]
        · rcases s with msg | b
          · simp [processRecord, h, hb]
          · cases b <;> simp [processRecord, h, hb]

theorem processRecord_skip (oc : RecordOutcome) (m : MediaRecord)
    (h : m.file_url.getD "" = "") : processRecord oc m = (0, 0, []) := by
  unfold processRecord
  simp [h]

theorem runLoop_count_le (l : List MediaRecord) (oc : Nat → RecordOutcome) (i : Nat) :
    (runLoop l oc i).1 + (runLoop l oc i).2.1 ≤ l.length := by
  induction l generalizing i with
  | nil => simp [runLoop]
  | cons m rest ih =>
    have h1 := processRecord_count_le (oc i) m
    have h2 := ih (i + 1)
    simp only [runLoop, List.length_cons]
    omega

theorem runLoop_count_lt (l : List MediaRecord) (oc : Nat → RecordOutcome) (i : Nat)
    (h : ∃ m ∈ l, m.file_url.getD "" = "") :
    (runLoop l oc i).1 + (runLoop l oc i).2.1 + 1 ≤ l.length := by
  induction l generalizing i with
  | nil => simp at h
  | cons m rest ih =>
    simp only [runLoop, List.length_cons]
    rcases h with ⟨m', hm', hurl⟩
    rcases List.mem_cons.mp hm' with rfl | hmem
    · have h0 := processRecord_skip (oc i) m' hurl
      have hp1 : (processRecord (oc i) m').1 = 0 := by rw [h0]
      have hp2 : (processRecord (oc i) m').2.1 = 0 := by rw [h0]
      have h2 := runLoop_count_le rest oc (i + 1)
      omega
    · have h1 := processRecord_count_le (oc i) m
      have h2 := ih (i + 1) ⟨m', hmem, hurl⟩
      omega

/-- C1: for every sync run — any fetched media list and any outcomes of the
download, analysis and store calls — the returned summary satisfies
`processed + errors ≤ total` (the `no_media` summary has no `errors` key,
read as `0`), and its `status` is `"completed"` whenever `total > 0`. -/
theorem sync_user_media_invariant (l : List MediaRecord) (oc : Nat → RecordOutcome) :
    (sync_user_media l oc).1.processed + ((sync_user_media l oc).1.errors).getD 0 ≤
      (sync_user_media l oc).1.total ∧
    (0 < (sync_user_media l oc).1.total → (sync_user_media l oc).1.status = "completed") := by
  unfold sync_user_media
  split
  · simp
  · have := runLoop_count_le l oc 0
    simp_all

/-- C3: in any run whose fetched list contains a record with no source URL,
that record is neither processed nor counted as an error while `total`
still counts it: `total` equals the length of the fetched list and
`processed + errors < total`. -/
theorem sync_user_media_missing_url (l : List MediaRecord) (oc : Nat → RecordOutcome)
    (h : ∃ m ∈ l, m.file_url.getD "" = "") :
    (sync_user_media l oc).1.total = l.length ∧
    (sync_user_media l oc).1.processed + ((sync_user_media l oc).1.errors).getD 0 <
      (sync_user_media l oc).1.total := by
  have hne : l ≠ [] := by rintro rfl; simp at h
  have hlt := runLoop_count_lt l oc 0 h
  unfold sync_user_media
  rw [if_neg (by simp [hne])]
  refine ⟨rfl, ?_⟩
  simp only [Option.getD_some]
  omega

/-- Witness for C3 at a concrete input: a single record with no `file_url`
key gives the summary `processed = 0`, `errors = 0`, `total = 1`. -/
theorem sync_user_media_missing_url_witness :
    (sync_user_media [{ id := some "m1" }]
        (fun _ => ⟨.ok none, .ok {}, .ok true⟩)).1.total = 1 ∧
    (sync_user_media [{ id := some "m1" }]
        (fun _ => ⟨.ok none, .ok {}, .ok true⟩)).1.processed +
      ((sync_user_media [{ id := some "m1" }]
        (fun _ => ⟨.ok none, .ok {}, .ok true⟩)).1.errors).getD 0 <
      (sync_user_media [{ id := some "m1" }]
        (fun _ => ⟨.ok none, .ok {}, .ok true⟩)).1.total :=
  sync_user_media_missing_url [{ id := some "m1" }]
    (fun _ => ⟨.ok none, .ok {}, .ok true⟩)
    ⟨{ id := some "m1" }, by simp, by simp⟩

/-- C4: for an empty fetched media list, `sync_user_media` returns exactly
the dictionary `{status: "no_media", processed: 0, total: 0}` (no `errors`
key) and performs no download, analysis or store call, whatever the oracle
would have answered. -/
theorem sync_user_media_empty (oc : Nat → RecordOutcome) :
    sync_user_media [] oc =
      ({ status := "no_media", processed := 0, total := 0, errors := none }, []) := rfl

/-- C5 counterexample: the summary of a run over an empty media list has no
`errors` field, so not every summary carries all four `SyncSummary`
fields. -/
theorem sync_summary_no_errors_field :
    (sync_user_media [] (fun _ => ⟨.ok none, .ok {}, .ok true⟩)).1.errors = none := rfl

/-- C5 (amended): every summary carries `status`, `processed` and `total`;
the error count is present exactly when the status is `"completed"` — the
`no_media` summary has no `errors` field. -/
theorem sync_summary_fields (l : List MediaRecord) (oc : Nat → RecordOutcome) :
    ((sync_user_media l oc).1.errors.isSome ↔
      (sync_user_media l oc).1.status = "completed") := by
  unfold sync_user_media
  split
  · simp
  · simp

/-! ## Face-detection server
(src/SpecEI_app/specei_app/server/face_detection_server.py) -/

/-- Python exception values flowing through the handlers: FastAPI's
`HTTPException` (which subclasses `Exception`, so the blanket
`except Exception` clauses catch it too) or any other exception. -/
inductive PyExn where
  | httpException (status : Nat) (detail : String)
  | other (msg : String)
deriving DecidableEq

/-- Python `str(e)`.  Starlette's `HTTPException.__str__` renders as
`"{status_code}: {detail}"`. -/
def exnStr : PyExn → String
  | .httpException s d => toString s ++ ": " ++ d
  | .other m => m

/-- A decoded image matrix; only the shape is observable to the handlers'
responses (`img.shape[1]`, `img.shape[0]`). -/
structure Image where
  width : Nat
  height : Nat
deriving DecidableEq

/-- One face bounding box as returned by `detectMultiScale`. -/
structure FaceBox where
  x : Nat
  y : Nat
  w : Nat
  h : Nat
deriving DecidableEq

/-- One entry of the `faces` list in a response.  `eyes_detected` and
`confidence` are present only in the `/detect` variant. -/
structure FaceInfo where
  id : Nat
  x : Nat
  y : Nat
  width : Nat
  height : Nat
  eyes_detected : Option Nat := none
deriving DecidableEq

/-- The JSON body of a successful detection response; `image_width` and
`image_height` are only present in the `/detect` variant. -/
structure DetectResponse where
  face_count : Nat
  faces : List FaceInfo
  image_width : Option Nat := none
  image_height : Option Nat := none
deriving DecidableEq

/-- The HTTP outcome of a handler: a success JSON response, or the error
response FastAPI builds from an `HTTPException` that escapes the handler
(carrying its status code and detail). -/
inductive HandlerResult where
  | ok (body : DetectResponse)
  | httpError (status : Nat) (detail : String)
deriving DecidableEq

/-- The `/detect` endpoint, `detect_faces` (face_detection_server.py lines
40-94).  `decode` is cv2.imdecode on the uploaded bytes (`none` = could
not decode); `detect` is the Haar-cascade call, which may itself raise;
`eyes` gives the eye count for the `i`-th face.  The `try` body either
returns a response or raises a `PyExn`; the `except Exception` clause
re-raises every caught exception — including the `HTTPException(400)`
raised for a failed decode — as `HTTPException(500, str(e))`. -/
def detect_faces (decode : List Nat → Option Image)
    (detect : Except String (List FaceBox)) (eyes : Nat → Nat)
    (contents : List Nat) : HandlerResult :=
  let body : Except PyExn DetectResponse :=
    match decode contents with
    | none => .error (.httpException 400 "Could not decode image")
    | some img =>
      match detect with
      | .error m => .error (.other m)
      | .ok faces =>
        .ok { face_count := faces.length
            , faces := faces.enum.map (fun p =>
                { id := p.1 + 1, x := p.2.x, y := p.2.y,
                  width := p.2.w, height := p.2.h,
                  eyes_detected := some (eyes p.1) })
            , image_width := some img.width
            , image_height := some img.height }
  match body with
  | .ok r => .ok r
  | .error e => .httpError 500 (exnStr e)

/-- The `/detect_base64` endpoint, `detect_faces_base64`
(face_detection_server.py lines 96-147).  `image_data` is `data.get("image")`
(`none` = key absent); `b64` is `base64.b64decode`, which may raise;
`decode` is cv2.imdecode.  As in `detect_faces`, every exception raised in
the `try` body — including the two `HTTPException(400)`s — is re-raised by
the `except` clause as `HTTPException(500, str(e))`. -/
def detect_faces_base64 (b64 : String → Except String (List Nat))
    (decode : List Nat → Option Image) (detect : Except String (List FaceBox))
    (image_data : Option String) : HandlerResult :=
  let body : Except PyExn DetectResponse :=
    if image_data.getD "" = "" then
      .error (.httpException 400 "No image data provided")
    else
      let s := image_data.getD ""
      let stripped := if (s.splitOn ",").length > 1 then (s.splitOn ",").getD 1 "" else s
      match b64 stripped with
      | .error m => .error (.other m)
      | .ok img_bytes =>
        match decode img_bytes with
        | none => .error (.httpException 400 "Could not decode image")
        | some _ =>
          match detect with
          | .error m => .error (.other m)
          | .ok faces =>
            .ok { face_count := faces.length
                , faces := faces.enum.map (fun p =>
                    { id := p.1 + 1, x := p.2.x, y := p.2.y,
                      width := p.2.w, height := p.2.h }) }
  match body with
  | .ok r => .ok r
  | .error e => .httpError 500 (exnStr e)

/-- C2 (divergence, evaluated at the failing input): a blank byte buffer
that cv2.imdecode cannot decode makes **both** endpoints answer with a
**500** response — the `HTTPException(400, "Could not decode image")` is
raised inside the `try` block, caught by the blanket `except Exception`,
and re-raised as `HTTPException(500, str(e))` — contradicting the claimed
400-class error. -/
theorem detect_undecodable_returns_500 :
    detect_faces (fun _ => none) (.ok []) (fun _ => 0) [] =
      .httpError 500 "400: Could not decode image" ∧
    detect_faces_base64 (fun _ => .ok [0]) (fun _ => none) (.ok []) (some "AAAA") =
      .httpError 500 "400: Could not decode image" := by
  constructor <;> rfl

/-! ## AI-provider gateway (src/AI_Backend/groq_cloud_service.py) -/

/-- One raw segment dictionary of the provider's verbose transcription
response; every key is read with `seg.get(key, default)`, so each may be
absent. -/
structure RawSeg where
  text : Option String := none
  start : Option Int := none
  endTime : Option Int := none

/-- The provider's transcription response object: `text` is always read;
`language` via `getattr(transcription, 'language', 'unknown')` may be
absent; `segments` may be absent or empty (both modelled as `[]`). -/
structure TranscriptionData where
  text : String
  language : Option String := none
  segments : List RawSeg := []

/-- One segment of the dictionary returned by `transcribe_audio`; in the
single-segment fallback (lines 98-102) `end` is `None`. -/
structure OutSeg where
  text : String
  start : Int
  endTime : Option Int
deriving DecidableEq

/-- The dictionary returned by `transcribe_audio`.  Success carries
`text`, `language`, `segments` and no `error` key; failure carries
`error`, empty `text`, empty `segments` and no `language` key. -/
structure TranscribeResult where
  error : Option String := none
  text : String
  language : Option String := none
  segments : List OutSeg
deriving DecidableEq

/-- `GroqCloudService.transcribe_audio` (groq_cloud_service.py lines
59-109).  `available` is `self.available`; `call` is the outcome of the
file read plus provider call inside the `try` (`.error` = any exception,
absorbed at lines 107-109). -/
def transcribe_audio (available : Bool) (call : Except String TranscriptionData) :
    TranscribeResult :=
  if !available then
    { error := some "Groq service not available", text := "", segments := [] }
  else
    match call with
    | .error e => { error := some e, text := "", segments := [] }
    | .ok t =>
      { text := t.text
      , language := some (t.language.getD "unknown")
      , segments :=
          if t.segments.isEmpty then
            [{ text := t.text, start := 0, endTime := none }]
          else
            t.segments.map (fun s =>
              { text := s.text.getD "", start := s.start.getD 0,
                endTime := some (s.endTime.getD 0) }) }

/-- The dictionary returned by `chat_completion`.  Success carries
`content` (which the provider may return as Python `None` in the
non-streaming branch) and `model`; failure carries `error` and an empty
`content`. -/
structure ChatResult where
  error : Option String := none
  content : Option String
  model : Option String := none
deriving DecidableEq

/-- `GroqCloudService.chat_completion` (groq_cloud_service.py lines
115-177).  `streamOutcome` is the outcome of creating and iterating the
streaming completion (the list of `chunk.choices[0].delta.content` values,
`none` = a `None` delta, skipped by `if delta:` along with empty strings);
`nonStreamOutcome` is the outcome of the non-streaming call
(`completion.choices[0].message.content`, possibly `None`).  Any exception
in either branch is absorbed at lines 175-177. -/
def chat_completion (available : Bool) (stream : Bool)
    (streamOutcome : Except String (List (Option String)))
    (nonStreamOutcome : Except String (Option String)) : ChatResult :=
  if !available then
    { error := some "Groq service not available", content := some "" }
  else
    if stream then
      match streamOutcome with
      | .error e => { error := some e, content := some "" }
      | .ok deltas =>
        { content := some (deltas.foldl (fun acc d =>
            match d with
            | some t => if t = "" then acc else acc ++ t
            | none => acc) "")
        , model := some "openai/gpt-oss-120b" }
    else
      match nonStreamOutcome with
      | .error e => { error := some e, content := some "" }
      | .ok c => { content := c, model := some "openai/gpt-oss-120b" }

/-- C6: `transcribe_audio` and `chat_completion` never propagate an
exception (they are total on every oracle outcome): on the unavailable
service and on any raised transport or decoding exception they return a
dictionary tagged with an `error` key and empty `text`/`content` fields. -/
theorem gateway_tags_errors (call : Except String TranscriptionData)
    (msg : String) (stream : Bool)
    (so : Except String (List (Option String)))
    (nso : Except String (Option String)) :
    transcribe_audio false call =
      { error := some "Groq service not available", text := "",
        language := none, segments := [] } ∧
    transcribe_audio true (.error msg) =
      { error := some msg, text := "", language := none, segments := [] } ∧
    chat_completion false stream so nso =
      { error := some "Groq service not available", content := some "",
        model := none } ∧
    chat_completion true true (.error msg) nso =
      { error := some msg, content := some "", model := none } ∧
    chat_completion true false so (.error msg) =
      { error := some msg, content := some "", model := none } := by
  refine ⟨rfl, rfl, rfl, rfl, rfl⟩

/-! ## Speech-to-text server
(src/SpecEI_app/specei_app/server/whisper_server.py) -/

/-- Outcome of `open(temp_filename, "wb")` + `shutil.copyfileobj` inside
the `try`: success, a failure after `open` created the file, or a failure
of `open` itself before the file existed. -/
inductive WriteOutcome where
  | ok
  | failAfterCreate (msg : String)
  | failBeforeCreate (msg : String)

/-- The result of `model.transcribe`: the segment texts, the detected
language and its probability (an abstract numeric score; its value is
irrelevant to the properties proved here). -/
structure WhisperInfo where
  texts : List String
  language : String
  probability : Int

/-- The JSON body of a successful `/transcribe` response. -/
structure WhisperResponse where
  text : String
  language : String
  probability : Int
deriving DecidableEq

/-- The `/transcribe` endpoint, `transcribe_audio` of whisper_server.py
(lines 39-69), over an explicit file-system state `fs` (a predicate on
path names).  The `try` writes the upload to `temp_filename`, transcribes,
and returns `{text, language, probability}`; the `except` re-raises any
exception as `HTTPException(500, str(e))` (which leaves the handler as a
500 response); the `finally` removes `temp_filename` if it exists.
Returns the HTTP outcome and the file system after the handler. -/
def whisper_transcribe (filename : String) (fs : String → Bool)
    (write : WriteOutcome) (trans : Except String WhisperInfo) :
    Except (Nat × String) WhisperResponse × (String → Bool) :=
  let temp_filename := "temp_" ++ filename
  let step : Except PyExn WhisperResponse × (String → Bool) :=
    match write with
    | .failBeforeCreate m => (.error (.other m), fs)
    | .failAfterCreate m => (.error (.other m), fun p => p == temp_filename || fs p)
    | .ok =>
      let fs1 := fun p => p == temp_filename || fs p
      match trans with
      | .error m => (.error (.other m), fs1)
      | .ok info =>
        (.ok { text := (String.intercalate " " info.texts).trim
             , language := info.language
             , probability := info.probability }, fs1)
  let result : Except (Nat × String) WhisperResponse :=
    match step.1 with
    | .ok r => .ok r
    | .error e => .error (500, exnStr e)
  let fsFinal :=
    if step.2 temp_filename then
      fun p => if p == temp_filename then false else step.2 p
    else step.2
  (result, fsFinal)

/-- C8: on every exit path of the `/transcribe` handler — write failure,
transcription failure, or success — the temporary file derived from the
upload's filename does not exist when the handler finishes. -/
theorem whisper_temp_file_removed (filename : String) (fs : String → Bool)
    (write : WriteOutcome) (trans : Except String WhisperInfo) :
    (whisper_transcribe filename fs write trans).2 ("temp_" ++ filename) = false := by
  unfold whisper_transcribe
  cases write <;> cases trans <;> simp <;> split <;> simp_all

/-! ## Media-store gateway (src/AI_Backend/supabase_sync.py lines 47-89) -/

/-- Outcome of an HTTP GET through the shared client: a raised exception,
or a response carrying a status code and a body. -/
inductive HttpOutcome (β : Type) where
  | raise (msg : String)
  | response (status : Nat) (body : β)

/-- `SupabaseSyncService.get_user_media` (lines 47-73).  `supabase_url`
and `supabase_key` are the configured credentials (`""` = unset, Python
falsy); the guard at line 49 tests **only** the URL.  The response body is
the outcome of `response.json()` (`.error` = it raised; caught by the
surrounding `except` and degraded to `[]`). -/
def get_user_media (supabase_url supabase_key user_id : String)
    (outcome : HttpOutcome (Except String (List MediaRecord))) : List MediaRecord :=
  if supabase_url = "" then []
  else
    match outcome with
    | .raise _ => []
    | .response status body =>
      if status = 200 then
        match body with
        | .ok media_list => media_list
        | .error _ => []
      else []

/-- `SupabaseSyncService.download_media` (lines 75-89): `none` on an empty
URL, a non-200 status, or a raised exception; the response content on
200. -/
def download_media (file_url : String) (outcome : HttpOutcome (List Nat)) :
    Option (List Nat) :=
  if file_url = "" then none
  else
    match outcome with
    | .raise _ => none
    | .response status content => if status = 200 then some content else none

/-- C9 counterexample: with the store URL configured but the API key
missing (`""`), the request is still attempted, and a 200 response is
returned as-is — the result is **not** the empty list, although the
credentials are (partly) missing. -/
theorem get_user_media_missing_key_not_empty :
    get_user_media "https://x.supabase.co" "" "user1"
        (.response 200 (.ok [{ id := some "m1" }])) = [{ id := some "m1" }] := rfl

/-- C9 (amended): `get_user_media` returns the empty list — and never
raises, being total in its oracle — whenever the store **URL** is unset,
the request raises, the response status is not 200, or the body fails to
decode; `download_media` returns `none` whenever the URL is empty, the
request raises, or the status is not 200.  A missing API key alone does
not force an empty result. -/
theorem media_gateway_degrades (url key uid msg furl : String) (s s' : Nat)
    (body : Except String (List MediaRecord))
    (body' : Except String (List MediaRecord)) (c c' : List Nat)
    (emsg : String) (hs : s ≠ 200) :
    get_user_media "" key uid (.response s' body') = [] ∧
    get_user_media "" key uid (.raise msg) = [] ∧
    get_user_media url key uid (.raise msg) = [] ∧
    get_user_media url key uid (.response s body) = [] ∧
    get_user_media url key uid (.response s' (.error emsg)) = [] ∧
    download_media "" (.response s' c') = none ∧
    download_media "" (.raise msg) = none ∧
    download_media furl (.raise msg) = none ∧
    download_media furl (.response s c) = none := by
  refine ⟨by simp [get_user_media], by simp [get_user_media], ?_, ?_, ?_, ?_, ?_, ?_, ?_⟩
  · unfold get_user_media; split <;> rfl
  · unfold get_user_media; split
    · rfl
    · simp [hs]
  · unfold get_user_media; split
    · rfl
    · dsimp only; split <;> rfl
  · simp [download_media]
  · simp [download_media]
  · unfold download_media; split <;> rfl
  · unfold download_media; split
    · rfl
    · simp [hs]

/-- Witness for C9 (amended) at concrete inputs. -/
theorem media_gateway_degrades_witness :
    get_user_media "https://x.supabase.co" "k" "user1"
        (.response 404 (.ok [{ id := some "m1" }])) = [] ∧
    download_media "https://x.supabase.co/f.png" (.response 404 [1, 2]) = none := by
  have h := media_gateway_degrades "https://x.supabase.co" "k" "user1" "err"
    "https://x.supabase.co/f.png" 404 200 (.ok [{ id := some "m1" }])
    (.ok []) [1, 2] [] "jsonerr" (by decide)
  exact ⟨h.2.2.2.1, h.2.2.2.2.2.2.2.2⟩

/-! ## Media analysis dispatch (src/AI_Backend/supabase_sync.py
lines 91-152) -/

/-- The internal calls of `analyze_media`, recorded as a trace: entering
the transcription branch (a `groq.transcribe_audio` call) or the vision
branch (the vision-analysis attempt inside the inner `try`). -/
inductive AnalyzeOp where
  | transcribeCall (path : String)
  | visionCall (path : String)
deriving DecidableEq

/-- The vision-analysis result dictionary; `error`, `visual_summary` and
`summary` are read with `.get`, so each may be absent. -/
structure VisionDict where
  error : Option String := none
  visual_summary : Option String := none
  summary : Option String := none
  tags : List String := []

/-- Oracle for one `analyze_media` call: the dictionary returned by
`groq.transcribe_audio` (which itself never raises), the outcome of the
vision import + `analyze_frame` call (`.error` = any exception, absorbed
by the inner `try` at lines 128-143), and the temporary file path chosen
by `tempfile.NamedTemporaryFile`. -/
structure AnalyzeOutcome where
  transcribeResult : TranscribeResult
  visionOutcome : Except String VisionDict
  tempPath : String

/-- The analysis dictionary extended with the `segments` key that the
transcription branch adds on success. -/
structure FullAnalysis where
  transcript : Option String := none
  tags : List String := []
  description : Option String := none
  segments : Option (List OutSeg) := none
deriving DecidableEq

/-- `SupabaseSyncService.analyze_media` (supabase_sync.py lines 91-152):
if Groq is unavailable, return the empty result untouched; otherwise run
the transcription branch when `media_type` is `audio` or `video`, and the
vision branch when it is `image` or `video`.  Returns the result
dictionary and the trace of branch executions. -/
def analyze_media (groqAvailable : Bool) (oc : AnalyzeOutcome)
    (media_type : String) : FullAnalysis × List AnalyzeOp :=
  if !groqAvailable then ({}, [])
  else
    let step1 : FullAnalysis × List AnalyzeOp :=
      if media_type = "audio" ∨ media_type = "video" then
        let tr := oc.transcribeResult
        if tr.error.getD "" = "" then
          ({ transcript := some tr.text, segments := some tr.segments },
           [.transcribeCall oc.tempPath])
        else ({}, [.transcribeCall oc.tempPath])
      else ({}, [])
    if media_type = "image" ∨ media_type = "video" then
      match oc.visionOutcome with
      | .error _ => (step1.1, step1.2 ++ [.visionCall oc.tempPath])
      | .ok v =>
        if v.error.getD "" = "" then
          ({ step1.1 with
              tags := v.tags
            , description := some
                (if v.visual_summary.getD "" = "" then v.summary.getD ""
                 else v.visual_summary.getD "") },
           step1.2 ++ [.visionCall oc.tempPath])
        else (step1.1, step1.2 ++ [.visionCall oc.tempPath])
    else step1

theorem analyze_media_image_trace (g : Bool) (oc : AnalyzeOutcome) :
    (analyze_media g oc "image").2 =
      if g then [AnalyzeOp.visionCall oc.tempPath] else [] := by
  obtain ⟨tr, vo, tp⟩ := oc
  cases g
  · rfl
  · rcases vo with msg | v
    · rfl
    · by_cases hv : v.error.getD "" = "" <;>
        simp [analyze_media, hv]

/-- C10: a record with a source URL but no `type` key gets the default
type `"image"` in `sync_user_media`'s loop (every `analyze` call in its
trace carries type `"image"`), and analysis of type `"image"` runs only
the vision branch: its trace contains no transcription call, and every
operation in it is a vision call. -/
theorem missing_type_defaults_to_image (m : MediaRecord) (hty : m.type = none)
    (g : Bool) (oc : AnalyzeOutcome) (roc : RecordOutcome) :
    m.type.getD "image" = "image" ∧
    (∀ mt fn, SyncOp.analyze mt fn ∈ (processRecord roc m).2.2 → mt = "image") ∧
    (∀ p, AnalyzeOp.transcribeCall p ∉ (analyze_media g oc "image").2) ∧
    (∀ op ∈ (analyze_media g oc "image").2, ∃ p, op = AnalyzeOp.visionCall p) := by
  refine ⟨by rw [hty]; rfl, ?_, ?_, ?_⟩
  · intro mt fn hmem
    obtain ⟨d, a, s⟩ := roc
    by_cases h : m.file_url.getD "" = ""
    · simp [processRecord, h] at hmem
    · rcases d with msg | fb
      · simp [processRecord, h] at hmem
      · by_cases hb : fb.getD [] = []
        · simp [processRecord, h, hb] at hmem
        · have hmt : m.type.getD "image" = "image" := by rw [hty]; rfl
          rcases a with msg | ad
          · simp [processRecord, h, hb, hmt] at hmem
            exact hmem.1
          · rcases s with msg | b
            · simp [processRecord, h, hb, hmt] at hmem
              tauto
            · cases b <;> simp [processRecord, h, hb, hmt] at hmem <;> tauto
  · intro p hmem
    rw [analyze_media_image_trace] at hmem
    split at hmem <;> simp at hmem
  · intro op hmem
    rw [analyze_media_image_trace] at hmem
    split at hmem
    · simp at hmem
      exact ⟨oc.tempPath, hmem⟩
    · simp at hmem

/-- Witness for C10 at a concrete input: a record with a `file_url` but no
`type` key. -/
theorem missing_type_defaults_to_image_witness :
    ({ file_url := some "https://x/f.png" : MediaRecord }).type.getD "image" = "image" ∧
    (∀ p, AnalyzeOp.transcribeCall p ∉
      (analyze_media true ⟨{ text := "", segments := [] }, .ok {}, "/tmp/t.png"⟩
        "image").2) :=
  have h := missing_type_defaults_to_image { file_url := some "https://x/f.png" } rfl
    true ⟨{ text := "", segments := [] }, .ok {}, "/tmp/t.png"⟩
    ⟨.ok none, .ok {}, .ok true⟩
  ⟨h.1, h.2.2.1⟩

/-! ## Forensic post-processing: Markdown code-fence stripping
(src/AI_Backend/groq_cloud_service.py lines 252-274) -/

/-- Python whitespace test used by `str.strip()`. -/
def isWs (c : Char) : Bool := c.isWhitespace

/-- Fuelled worker for `pySplit`; the fuel only serves structural
recursion and is irrelevant as long as it is at least the input length
(`pySplitF_fuel_irrel`). -/
def pySplitF (sep : List Char) : Nat → List Char → List (List Char)
  | _, [] => [[]]
  | 0, _ :: _ => [[]]
  | fuel + 1, c :: rest =>
    if sep ≠ [] ∧ sep.isPrefixOf (c :: rest) then
      [] :: pySplitF sep fuel ((c :: rest).drop sep.length)
    else
      match pySplitF sep fuel rest with
      | [] => [[c]]
      | chunk :: more => (c :: chunk) :: more

/-- Python `str.split(sep)` on character lists: split at every
non-overlapping occurrence of `sep`, scanning left to right.  (`sep` is
never empty at the call sites; an empty `sep` is treated as
never-matching.) -/
def pySplit (sep : List Char) (s : List Char) : List (List Char) :=
  pySplitF sep s.length s

/-- Python's substring test `sep in s` on character lists. -/
def containsSub (sep : List Char) : List Char → Bool
  | [] => sep.isEmpty
  | c :: rest => sep.isPrefixOf (c :: rest) || containsSub sep rest

/-- The plain Markdown code-fence marker. -/
def fence : List Char := "```".toList

/-- The JSON-tagged Markdown code-fence marker. -/
def fenceJson : List Char := "```json".toList

/-- Drop leading whitespace (half of Python `str.strip()`). -/
def trimLeftChars (s : List Char) : List Char := s.dropWhile isWs

/-- Drop trailing whitespace (the other half of Python `str.strip()`). -/
def trimRightChars (s : List Char) : List Char := (s.reverse.dropWhile isWs).reverse

/-- Python `str.strip()`. -/
def pyStripChars (s : List Char) : List Char := trimRightChars (trimLeftChars s)

/-- The code-fence cleanup of `generate_forensic_analysis`
(groq_cloud_service.py lines 259-263):

    if "```json" in content:
        content = content.split("```json")[1].split("```")[0]
    elif "```" in content:
        content = content.split("```")[1].split("```")[0]

The indexing `[1]` cannot fail because of the guards. -/
def cleanContent (content : List Char) : List Char :=
  if containsSub fenceJson content then
    (pySplit fence ((pySplit fenceJson content).getD 1 [])).getD 0 []
  else if containsSub fence content then
    (pySplit fence ((pySplit fence content).getD 1 [])).getD 0 []
  else content

/-- A JSON value as produced by Python's `json.loads`. -/
inductive JValue where
  | jnull
  | jbool (b : Bool)
  | jnum (n : Int)
  | jstr (s : String)
  | jarr (elems : List JValue)
  | jobj (members : List (String × JValue))

/-- Skip JSON inter-token whitespace. -/
def skipWs (s : List Char) : List Char := s.dropWhile isWs

/-- Parse the body of a JSON string literal after its opening quote
(single-character escapes only — the fragment exercised here); returns the
decoded characters and the input after the closing quote. -/
def parseStringBody : Nat → List Char → Option (List Char × List Char)
  | 0, _ => none
  | _, [] => none
  | fuel + 1, c :: rest =>
    if c = '\"' then some ([], rest)
    else if c = '\\' then
      match rest with
      | [] => none
      | e :: rest' =>
        let ec : Option Char :=
          if e = '\"' then some '\"'
          else if e = '\\' then some '\\'
          else if e = '/' then some '/'
          else if e = 'n' then some '\n'
          else if e = 't' then some '\t'
          else if e = 'r' then some '\r'
          else none
        match ec with
        | none => none
        | some ch =>
          match parseStringBody fuel rest' with
          | none => none
          | some (cs, r) => some (ch :: cs, r)
    else
      match parseStringBody fuel rest with
      | none => none
      | some (cs, r) => some (c :: cs, r)

mutual

/-- Parse one JSON value (model of the recursive descent inside Python's
`json.loads`, on the fragment exercised here: integer numerals, strings
with basic escapes, arrays, objects, `true`/`false`/`null`). -/
def parseValue : Nat → List Char → Option (JValue × List Char)
  | 0, _ => none
  | fuel + 1, s =>
    match skipWs s with
    | [] => none
    | c :: rest =>
      if c = '\"' then
        match parseStringBody (rest.length + 1) rest with
        | none => none
        | some (cs, r) => some (.jstr (String.mk cs), r)
      else if c = '\x7b' then
        match parseMembers fuel rest true with
        | none => none
        | some (ms, r) => some (.jobj ms, r)
      else if c = '[' then
        match parseElems fuel rest true with
        | none => none
        | some (vs, r) => some (.jarr vs, r)
      else if c = 't' then
        if ['r', 'u', 'e'].isPrefixOf rest then some (.jbool true, rest.drop 3)
        else none
      else if c = 'f' then
        if ['a', 'l', 's', 'e'].isPrefixOf rest then some (.jbool false, rest.drop 4)
        else none
      else if c = 'n' then
        if ['u', 'l', 'l'].isPrefixOf rest then some (.jnull, rest.drop 3)
        else none
      else if c = '-' ∨ c.isDigit then
        let t := if c = '-' then rest else c :: rest
        let ds := t.takeWhile Char.isDigit
        let r := t.dropWhile Char.isDigit
        if ds.isEmpty then none
        else
          match r with
          | '.' :: _ => none
          | 'e' :: _ => none
          | 'E' :: _ => none
          | _ =>
            let n : Nat := ds.foldl (fun a d => a * 10 + (d.toNat - 48)) 0
            some (.jnum (if c = '-' then -(n : Int) else (n : Int)), r)
      else none

/-- Parse the elements of a JSON array after the opening bracket. -/
def parseElems : Nat → List Char → Bool → Option (List JValue × List Char)
  | 0, _, _ => none
  | fuel + 1, s, first =>
    match skipWs s with
    | ']' :: r => if first then some ([], r) else none
    | s' =>
      match parseValue fuel s' with
      | none => none
      | some (v, r) =>
        match skipWs r with
        | ',' :: r' =>
          match parseElems fuel r' false with
          | none => none
          | some (vs, r'') => some (v :: vs, r'')
        | ']' :: r' => some ([v], r')
        | _ => none

/-- Parse the members of a JSON object after the opening brace. -/
def parseMembers : Nat → List Char → Bool → Option (List (String × JValue) × List Char)
  | 0, _, _ => none
  | fuel + 1, s, first =>
    match skipWs s with
    | '\x7d' :: r => if first then some ([], r) else none
    | '\"' :: rest =>
      match parseStringBody (rest.length + 1) rest with
      | none => none
      | some (k, r) =>
        match skipWs r with
        | ':' :: r' =>
          match parseValue fuel r' with
          | none => none
          | some (v, r'') =>
            match skipWs r'' with
            | ',' :: r3 =>
              match parseMembers fuel r3 false with
              | none => none
              | some (ms, r4) => some ((String.mk k, v) :: ms, r4)
            | '\x7d' :: r3 => some ([(String.mk k, v)], r3)
            | _ => none
        | _ => none
    | _ => none

end

/-- Model of Python `json.loads` on the grammar fragment above: parse one
value and require only whitespace to remain (otherwise `loads` raises,
modelled as `none`). -/
def jsonLoads (s : List Char) : Option JValue :=
  match parseValue (2 * s.length + 2) s with
  | none => none
  | some (v, rest) => if skipWs rest = [] then some v else none

/-- Python dictionary item assignment `d[k] = v`: replace an existing key
or append a new one. -/
def setKey (kvs : List (String × JValue)) (k : String) (v : JValue) :
    List (String × JValue) :=
  if kvs.any (fun p => p.1 == k) then
    kvs.map (fun p => if p.1 == k then (k, v) else p)
  else kvs ++ [(k, v)]

/-- The post-processing of the model output in `generate_forensic_analysis`
(groq_cloud_service.py lines 255-274): strip code fences, strip
whitespace, decode with `json.loads` (passed in as `loads`), then set
`media_id` and `user_id` on the resulting dictionary.  A decoding failure,
or a decoded value that is not a dictionary (item assignment raises), is
caught by the `except` and yields `none`. -/
def forensicPostProcess (loads : List Char → Option JValue)
    (media_id user_id : String) (content : List Char) :
    Option (List (String × JValue)) :=
  match loads (pyStripChars (cleanContent content)) with
  | some (.jobj kvs) =>
    some (setKey (setKey kvs "media_id" (.jstr media_id)) "user_id" (.jstr user_id))
  | some _ => none
  | none => none

/-- `GroqCloudService.generate_forensic_analysis` (groq_cloud_service.py
lines 179-274), with the prompt assembly elided: call `chat_completion`
(non-streaming) and post-process its `content`.  An `error` key in the
chat result, or a `None` content (over which the fence test would raise),
yields `none`. -/
def generate_forensic_analysis (available : Bool)
    (callOutcome : Except String (Option String))
    (loads : List Char → Option JValue) (media_id user_id : String) :
    Option (List (String × JValue)) :=
  let result := chat_completion available false (.ok []) callOutcome
  match result.error, result.content with
  | some _, _ => none
  | none, none => none
  | none, some content => forensicPostProcess loads media_id user_id content.toList

/-- A model output of the form ```` ```json\n<s>\n``` ````. -/
def wrapJsonFence (s : List Char) : List Char :=
  fenceJson ++ '\n' :: (s ++ '\n' :: fence)

/-- A model output of the form ```` ```\n<s>\n``` ````. -/
def wrapPlainFence (s : List Char) : List Char :=
  fence ++ '\n' :: (s ++ '\n' :: fence)

/-- A valid JSON forensic-log string that contains triple-backtick runs
inside its string literals (in the `key_phrases` list):
`{"audio_content": {"key_phrases": ["x``` {", ": 1}``` y"]}}`. -/
def jsonCex : List Char :=
  "\x7b\"audio_content\": \x7b\"key_phrases\": [\"x``` \x7b\", \": 1\x7d``` y\"]\x7d\x7d".toList

/-! ### Helper lemmas on `isPrefixOf`, `containsSub` and `pySplit` -/

theorem isPrefixOf_append_left (u v w : List Char)
    (h : (u ++ v).isPrefixOf w = true) : u.isPrefixOf w = true := by
  rw [List.isPrefixOf_iff_prefix] at h ⊢
  exact (List.prefix_append u v).trans h

theorem isPrefixOf_of_le_length (v x w : List Char)
    (h : v.isPrefixOf (x ++ w) = true) (hle : v.length ≤ x.length) :
    v.isPrefixOf x = true := by
  rw [List.isPrefixOf_iff_prefix, List.prefix_iff_eq_take] at h ⊢
  rw [List.take_append_eq_append_take] at h
  have h0 : v.length - x.length = 0 := by omega
  rw [h0, List.take_zero, List.append_nil] at h
  exact h

theorem no_nl_prefixOf (v t z : List Char) (hv : '\n' ∉ v)
    (hlen : t.length < v.length) : v.isPrefixOf (t ++ '\n' :: z) = false := by
  by_contra hc
  rw [Bool.not_eq_false, List.isPrefixOf_iff_prefix, List.prefix_iff_eq_take] at hc
  rw [List.take_append_eq_append_take] at hc
  obtain ⟨k, hk⟩ : ∃ k, v.length - t.length = k + 1 := ⟨v.length - t.length - 1, by omega⟩
  rw [hk, List.take_cons_succ] at hc
  exact hv (hc ▸ List.mem_append_right _ (List.mem_cons_self _ _))

theorem nl_blocks_prefixOf (v x z : List Char) (hv : '\n' ∉ v)
    (h : v.isPrefixOf (x ++ '\n' :: z) = true) : v.isPrefixOf x = true := by
  by_cases hle : v.length ≤ x.length
  · exact isPrefixOf_of_le_length v x _ h hle
  · rw [no_nl_prefixOf v x z hv (by omega)] at h
    cases h

theorem head_ne_prefixOf (v : List Char) (c : Char) (w : List Char)
    (hv : c ∉ v) (hne : v ≠ []) : v.isPrefixOf (c :: w) = false := by
  cases v with
  | nil => exact absurd rfl hne
  | cons a as =>
    have hac : a ≠ c := fun h => hv (h ▸ List.mem_cons_self a as)
    simp [List.isPrefixOf, hac]

theorem containsSub_head (sep t : List Char) (hne : sep ≠ []) :
    containsSub sep (sep ++ t) = true := by
  cases sep with
  | nil => exact absurd rfl hne
  | cons a as =>
    rw [List.cons_append, containsSub, ← List.cons_append]
    have hp : (a :: as).isPrefixOf ((a :: as) ++ t) = true := by
      rw [List.isPrefixOf_iff_prefix]; exact List.prefix_append _ _
    simp [hp]

theorem containsSub_append_nl (v : List Char) (hne : v ≠ []) (hv : '\n' ∉ v) :
    ∀ a z, containsSub v a = false → containsSub v z = false →
      containsSub v (a ++ '\n' :: z) = false := by
  intro a
  induction a with
  | nil =>
    intro z _ hz
    rw [List.nil_append, containsSub]
    simp [head_ne_prefixOf v '\n' z hv hne, hz]
  | cons c a' ih =>
    intro z ha hz
    rw [containsSub, Bool.or_eq_false_iff] at ha
    rw [List.cons_append, containsSub, Bool.or_eq_false_iff]
    refine ⟨?_, ih z ha.2 hz⟩
    rw [← List.cons_append]
    by_contra hc
    rw [Bool.not_eq_false] at hc
    have := nl_blocks_prefixOf v (c :: a') z hv hc
    rw [ha.1] at this
    cases this

theorem containsSub_extension (s : List Char)
    (hf : containsSub fence s = false) : containsSub fenceJson s = false := by
  have hfj : fenceJson = fence ++ "json".toList := by decide
  induction s with
  | nil => decide
  | cons c s' ih =>
    rw [containsSub, Bool.or_eq_false_iff] at hf ⊢
    refine ⟨?_, ih hf.2⟩
    by_contra hc
    rw [Bool.not_eq_false, hfj] at hc
    have := isPrefixOf_append_left _ _ _ hc
    rw [hf.1] at this
    cases this

theorem pySplitF_fuel_irrel (sep : List Char) :
    ∀ fuel fuel' s, s.length ≤ fuel → s.length ≤ fuel' →
      pySplitF sep fuel s = pySplitF sep fuel' s := by
  intro fuel
  induction fuel with
  | zero =>
    intro fuel' s hs _
    have : s = [] := List.length_eq_zero.mp (Nat.le_zero.mp hs)
    subst this
    cases fuel' <;> rfl
  | succ n ih =>
    intro fuel' s hs hs'
    cases s with
    | nil => cases fuel' <;> rfl
    | cons c rest =>
      cases fuel' with
      | zero => simp at hs'
      | succ n' =>
        rw [pySplitF, pySplitF]
        by_cases hcond : sep ≠ [] ∧ sep.isPrefixOf (c :: rest) = true
        · rw [if_pos hcond, if_pos hcond]
          have hsep : 0 < sep.length := List.length_pos.mpr hcond.1
          have hd : ((c :: rest).drop sep.length).length ≤ n := by
            simp only [List.length_drop, List.length_cons]
            simp only [List.length_cons] at hs
            omega
          have hd' : ((c :: rest).drop sep.length).length ≤ n' := by
            simp only [List.length_drop, List.length_cons]
            simp only [List.length_cons] at hs'
            omega
          rw [ih n' _ hd hd']
        · rw [if_neg hcond, if_neg hcond]
          have hr : rest.length ≤ n := by
            simp only [List.length_cons] at hs; omega
          have hr' : rest.length ≤ n' := by
            simp only [List.length_cons] at hs'; omega
          rw [ih n' rest hr hr']

theorem pySplitF_not_contains (sep : List Char) :
    ∀ s fuel, s.length ≤ fuel → containsSub sep s = false →
      pySplitF sep fuel s = [s] := by
  intro s
  induction s with
  | nil => intro fuel _ _; cases fuel <;> rfl
  | cons c rest ih =>
    intro fuel hlen hc
    rw [containsSub, Bool.or_eq_false_iff] at hc
    cases fuel with
    | zero => simp at hlen
    | succ n =>
      rw [pySplitF, if_neg (by simp [hc.1])]
      have hr : rest.length ≤ n := by
        simp only [List.length_cons] at hlen; omega
      rw [ih n hr hc.2]

/-- `s.split(sep)` is `[s]` when `sep` does not occur in `s`. -/
theorem pySplit_not_contains (sep s : List Char)
    (hc : containsSub sep s = false) : pySplit sep s = [s] :=
  pySplitF_not_contains sep s s.length (Nat.le_refl _) hc

theorem pySplitF_self_append (sep t : List Char) (hne : sep ≠ []) :
    ∀ fuel, (sep ++ t).length ≤ fuel →
      pySplitF sep fuel (sep ++ t) = [] :: pySplit sep t := by
  intro fuel hlen
  have hsep : 0 < sep.length := List.length_pos.mpr hne
  cases fuel with
  | zero => simp only [List.length_append] at hlen; omega
  | succ n =>
    cases sep with
    | nil => exact absurd rfl hne
    | cons a as =>
      rw [List.cons_append, pySplitF]
      have hp : (a :: as).isPrefixOf (a :: (as ++ t)) = true := by
        rw [← List.cons_append, List.isPrefixOf_iff_prefix]
        exact List.prefix_append _ _
      rw [if_pos ⟨hne, hp⟩, ← List.cons_append, List.drop_left]
      have hlt : t.length ≤ n := by
        simp only [List.length_append, List.length_cons] at hlen ⊢
        omega
      rw [pySplitF_fuel_irrel (a :: as) n t.length t hlt (Nat.le_refl _)]
      rfl

/-- `(sep ++ t).split(sep)` starts with an empty chunk. -/
theorem pySplit_self_append (sep t : List Char) (hne : sep ≠ []) :
    pySplit sep (sep ++ t) = [] :: pySplit sep t :=
  pySplitF_self_append sep t hne _ (Nat.le_refl _)

theorem pySplitF_nl_self (v : List Char) (hne : v ≠ []) (hv : '\n' ∉ v) :
    ∀ x fuel, (x ++ '\n' :: v).length ≤ fuel → containsSub v x = false →
      pySplitF v fuel (x ++ '\n' :: v) = [x ++ ['\n'], []] := by
  intro x
  induction x with
  | nil =>
    intro fuel hlen _
    cases fuel with
    | zero => simp at hlen
    | succ n =>
      rw [List.nil_append, pySplitF,
        if_neg (by simp [head_ne_prefixOf v '\n' v hv hne])]
      have hvn : pySplitF v n v = [] :: pySplit v [] := by
        have := pySplitF_self_append v [] hne n
          (by simp only [List.nil_append, List.length_cons] at hlen ⊢
              simp only [List.length_append, List.length_nil]
              omega)
        rw [List.append_nil] at this
        exact this
      rw [hvn]
      rfl
  | cons c x' ih =>
    intro fuel hlen hc
    rw [containsSub, Bool.or_eq_false_iff] at hc
    cases fuel with
    | zero => simp at hlen
    | succ n =>
      rw [List.cons_append, pySplitF]
      have hnp : v.isPrefixOf (c :: (x' ++ '\n' :: v)) = false := by
        by_contra hcc
        rw [Bool.not_eq_false, ← List.cons_append] at hcc
        have := nl_blocks_prefixOf v (c :: x') v hv hcc
        rw [hc.1] at this
        cases this
      rw [if_neg (by simp [hnp])]
      have hr : (x' ++ '\n' :: v).length ≤ n := by
        simp only [List.length_append, List.length_cons] at hlen ⊢
        omega
      rw [ih n hr hc.2]
      rfl

/-- Splitting `x ++ "\n" ++ v` by `v` when `v` does not occur in `x` and
contains no newline: one chunk `x ++ "\n"` and one empty trailing chunk. -/
theorem pySplit_nl_self (v x : List Char) (hne : v ≠ []) (hv : '\n' ∉ v)
    (hc : containsSub v x = false) :
    pySplit v (x ++ '\n' :: v) = [x ++ ['\n'], []] :=
  pySplitF_nl_self v hne hv x _ (Nat.le_refl _) hc

theorem trimRight_append_nl (y : List Char) :
    trimRightChars (y ++ ['\n']) = trimRightChars y := by
  have h : isWs '\n' = true := by decide
  simp [trimRightChars, List.reverse_append, List.dropWhile_cons, h]

theorem trim_both_append_nl (x : List Char) :
    trimRightChars (trimLeftChars (x ++ ['\n'])) =
      trimRightChars (trimLeftChars x) := by
  induction x with
  | nil => decide
  | cons c x' ih =>
    by_cases hw : isWs c = true
    · simp only [List.cons_append, trimLeftChars, List.dropWhile_cons, hw,
        if_true] at ih ⊢
      exact ih
    · simp only [List.cons_append, trimLeftChars, List.dropWhile_cons, hw,
        if_false, Bool.false_eq_true]
      rw [← List.cons_append]
      exact trimRight_append_nl (c :: x')

/-- Stripping whitespace ignores the `"\n"` framing the fences add. -/
theorem pyStrip_wrap (x : List Char) :
    pyStripChars ('\n' :: (x ++ ['\n'])) = pyStripChars x := by
  have h : isWs '\n' = true := by decide
  unfold pyStripChars
  rw [show trimLeftChars ('\n' :: (x ++ ['\n'])) = trimLeftChars (x ++ ['\n']) by
    simp [trimLeftChars, List.dropWhile_cons, h]]
  exact trim_both_append_nl x

/-! ### Behaviour of the fence cleanup -/

theorem cleanContent_no_fence (s : List Char)
    (hf : containsSub fence s = false) : cleanContent s = s := by
  unfold cleanContent
  rw [if_neg (by simp [containsSub_extension s hf]), if_neg (by simp [hf])]

theorem cleanContent_wrapJson (s : List Char)
    (hf : containsSub fence s = false) :
    cleanContent (wrapJsonFence s) = '\n' :: (s ++ ['\n']) := by
  have hFne : fence ≠ [] := by decide
  have hJne : fenceJson ≠ [] := by decide
  have hFnl : '\n' ∉ fence := by decide
  have hJnl : '\n' ∉ fenceJson := by decide
  have hjs : containsSub fenceJson s = false := containsSub_extension s hf
  have hA : containsSub fence ('\n' :: s) = false := by
    rw [containsSub, Bool.or_eq_false_iff]
    exact ⟨head_ne_prefixOf fence '\n' s hFnl hFne, hf⟩
  have hjA : containsSub fenceJson ('\n' :: s) = false := by
    rw [containsSub, Bool.or_eq_false_iff]
    exact ⟨head_ne_prefixOf fenceJson '\n' s hJnl hJne, hjs⟩
  have htail : containsSub fenceJson ('\n' :: (s ++ '\n' :: fence)) = false := by
    have := containsSub_append_nl fenceJson hJne hJnl ('\n' :: s) fence hjA
      (by decide)
    simpa using this
  have hcont : containsSub fenceJson (wrapJsonFence s) = true := by
    unfold wrapJsonFence
    exact containsSub_head fenceJson _ hJne
  have h1 : pySplit fenceJson (wrapJsonFence s) =
      [[], '\n' :: (s ++ '\n' :: fence)] := by
    unfold wrapJsonFence
    rw [pySplit_self_append fenceJson _ hJne,
      pySplit_not_contains fenceJson _ htail]
  have h2 : pySplit fence ('\n' :: (s ++ '\n' :: fence)) =
      ['\n' :: (s ++ ['\n']), []] := by
    have := pySplit_nl_self fence ('\n' :: s) hFne hFnl hA
    simpa using this
  unfold cleanContent
  rw [if_pos hcont, h1]
  show (pySplit fence ('\n' :: (s ++ '\n' :: fence))).getD 0 [] = _
  rw [h2]
  rfl

theorem cleanContent_wrapPlain (s : List Char)
    (hf : containsSub fence s = false) :
    cleanContent (wrapPlainFence s) = '\n' :: (s ++ ['\n']) := by
  have hFne : fence ≠ [] := by decide
  have hJne : fenceJson ≠ [] := by decide
  have hFnl : '\n' ∉ fence := by decide
  have hJnl : '\n' ∉ fenceJson := by decide
  have hjs : containsSub fenceJson s = false := containsSub_extension s hf
  have hA : containsSub fence ('\n' :: s) = false := by
    rw [containsSub, Bool.or_eq_false_iff]
    exact ⟨head_ne_prefixOf fence '\n' s hFnl hFne, hf⟩
  have hz : containsSub fenceJson (s ++ '\n' :: fence) = false :=
    containsSub_append_nl fenceJson hJne hJnl s fence hjs (by decide)
  have hnj : containsSub fenceJson (wrapPlainFence s) = false := by
    unfold wrapPlainFence
    exact containsSub_append_nl fenceJson hJne hJnl fence (s ++ '\n' :: fence)
      (by decide) hz
  have hcf : containsSub fence (wrapPlainFence s) = true := by
    unfold wrapPlainFence
    exact containsSub_head fence _ hFne
  have h2 : pySplit fence ('\n' :: (s ++ '\n' :: fence)) =
      ['\n' :: (s ++ ['\n']), []] := by
    have := pySplit_nl_self fence ('\n' :: s) hFne hFnl hA
    simpa using this
  have h1 : pySplit fence (wrapPlainFence s) =
      [[], '\n' :: (s ++ ['\n']), []] := by
    unfold wrapPlainFence
    rw [pySplit_self_append fence _ hFne, h2]
  have h3 : containsSub fence ('\n' :: (s ++ ['\n'])) = false := by
    have := containsSub_append_nl fence hFne hFnl ('\n' :: s) [] hA (by decide)
    simpa using this
  unfold cleanContent
  rw [if_neg (by simp [hnj]), if_pos hcf, h1]
  show (pySplit fence ('\n' :: (s ++ ['\n']))).getD 0 [] = _
  rw [pySplit_not_contains fence _ h3]
  rfl

/-- C7 (amended): for every forensic-log string `s` that does not contain
the triple-backtick fence marker — whether or not it is valid JSON, and
for every decoder — post-processing `s` wrapped in Markdown code fences
(either the ```` ```json ```` or the plain ```` ``` ```` form) gives the
same result as post-processing the unwrapped `s`. -/
theorem forensic_fence_roundtrip (loads : List Char → Option JValue)
    (media_id user_id : String) (s : List Char)
    (h : containsSub fence s = false) :
    generate_forensic_analysis true (.ok (some (String.mk (wrapJsonFence s))))
        loads media_id user_id =
      generate_forensic_analysis true (.ok (some (String.mk s)))
        loads media_id user_id ∧
    generate_forensic_analysis true (.ok (some (String.mk (wrapPlainFence s))))
        loads media_id user_id =
      generate_forensic_analysis true (.ok (some (String.mk s)))
        loads media_id user_id := by
  have harg1 : pyStripChars (cleanContent (wrapJsonFence s)) =
      pyStripChars (cleanContent s) := by
    rw [cleanContent_wrapJson s h, cleanContent_no_fence s h]
    exact pyStrip_wrap s
  have harg2 : pyStripChars (cleanContent (wrapPlainFence s)) =
      pyStripChars (cleanContent s) := by
    rw [cleanContent_wrapPlain s h, cleanContent_no_fence s h]
    exact pyStrip_wrap s
  constructor
  · show forensicPostProcess loads media_id user_id (wrapJsonFence s) =
      forensicPostProcess loads media_id user_id s
    unfold forensicPostProcess
    rw [harg1]
  · show forensicPostProcess loads media_id user_id (wrapPlainFence s) =
      forensicPostProcess loads media_id user_id s
    unfold forensicPostProcess
    rw [harg2]

/-- Witness for C7 (amended) at a concrete fence-free JSON string
`{"a": 1}`. -/
theorem forensic_fence_roundtrip_witness :
    containsSub fence "\x7b\"a\": 1\x7d".toList = false ∧
    generate_forensic_analysis true
        (.ok (some (String.mk (wrapJsonFence "\x7b\"a\": 1\x7d".toList))))
        jsonLoads "m1" "u1" =
      generate_forensic_analysis true
        (.ok (some (String.mk "\x7b\"a\": 1\x7d".toList)))
        jsonLoads "m1" "u1" :=
  ⟨by decide,
   (forensic_fence_roundtrip jsonLoads "m1" "u1" "\x7b\"a\": 1\x7d".toList
     (by decide)).1⟩

/-- C7 counterexample: `jsonCex` is a valid JSON string (it decodes), yet
post-processing it wrapped in ```` ```json ```` fences yields no forensic
log while post-processing the unwrapped string yields one — the fence
stripping cuts at the triple-backtick runs inside the JSON string
literals, so the two disagree. -/
theorem forensic_fence_roundtrip_cex :
    (jsonLoads jsonCex).isSome = true ∧
    generate_forensic_analysis true
        (.ok (some (String.mk (wrapJsonFence jsonCex)))) jsonLoads "m1" "u1" =
      none ∧
    (generate_forensic_analysis true
        (.ok (some (String.mk jsonCex))) jsonLoads "m1" "u1").isSome = true := by
  refine ⟨by decide, by rfl, by decide⟩

end SpecEI
